import Mathlib

/-!
Verification of the netdial library (netdial.c / netdial.h).

This file gives a shallow embedding of the address parser, the flag
translator, the socket factory / lifecycle code paths and the address
formatter of netdial.c, and proves or refutes the frozen claims about
them.

Conventions of the embedding:
* C strings are `List Char` (the bytes before the terminating NUL; the
  input strings never contain a NUL byte).
* C `int` values that are only ever small nonnegative constants
  (families, socket kinds, flag masks) are `Nat`; return codes that can
  be `-1` are `Int`.
* Fallible C functions returning `bool`/pointers become `Option`.
* Platform constants carry their Linux values; only their distinctness
  and zero/nonzero status matter to the proofs.
* Syscall-performing code paths are embedded as explicit state-passing
  functions over an environment describing the outcome of each syscall,
  producing a trace of descriptor/filesystem events.
-/

/-! ## Platform constants (Linux values) -/

def AF_UNSPEC : Nat := 0
def AF_UNIX : Nat := 1
def AF_INET : Nat := 2
def AF_INET6 : Nat := 10

def SOCK_STREAM : Nat := 1
def SOCK_DGRAM : Nat := 2
def SOCK_SEQPACKET : Nat := 5

def SOCK_NONBLOCK : Nat := 2048
def SOCK_CLOEXEC : Nat := 524288

def NI_MAXHOST : Nat := 1025
def NI_MAXSERV : Nat := 32

def NI_NUMERICHOST : Nat := 1
def NI_NUMERICSERV : Nat := 2
def NI_DGRAM : Nat := 16

def SO_DEBUG : Nat := 1
def SO_REUSEADDR : Nat := 2
def SO_BROADCAST : Nat := 6
def SO_KEEPALIVE : Nat := 9
def SO_REUSEPORT : Nat := 15
def SO_PASSCRED : Nat := 16
def SO_PASSEC : Nat := 34

def SHUT_RD : Nat := 0
def SHUT_WR : Nat := 1
def SHUT_RDWR : Nat := 2

/-- Size of `sockaddr_un.sun_path` on Linux. -/
def SUN_PATH_SIZE : Nat := 108

/-! ## netdial.h flag constants -/

def NDdefault : Nat := 0
def NDblocking : Nat := 2
def NDexeckeep : Nat := 4
def NDpasscred : Nat := 512
def NDpassec : Nat := 1024
def NDbroadcast : Nat := 131072
def NDdebug : Nat := 262144
def NDkeepalive : Nat := 524288
def NDreuseaddr : Nat := 1048576
def NDreuseport : Nat := 2097152

def NDclose : Nat := 0
def NDread : Nat := 2
def NDwrite : Nat := 4
def NDrdwr : Nat := 6

/-! ## String helpers (strchr, strncasecmp) -/

/-- `strchr`-based split: `strchrSplit s c = some (pre, post)` when `s`
contains `c`, with `pre` the bytes before the first occurrence and
`post` the bytes after it; `none` when `c` does not occur. -/
def strchrSplit : List Char → Char → Option (List Char × List Char)
  | [], _ => none
  | a :: rest, c =>
    if a = c then some ([], rest)
    else
      match strchrSplit rest c with
      | none => none
      | some (pre, post) => some (a :: pre, post)

/-- Embedding of `strncasecmp(tok, name, |tok|) == 0` where `tok` is a
NUL-free byte run of the input and `name` a NUL-terminated table entry:
the comparison succeeds exactly when the lowercased `tok` matches the
beginning of the lowercased `name` (reaching `name`'s terminator early
is a mismatch, exhausting `tok` is a match). -/
def ciPrefixMatch : List Char → List Char → Bool
  | [], _ => true
  | _ :: _, [] => false
  | a :: as, b :: bs => (a.toLower == b.toLower) && ciPrefixMatch as bs

/-! ## Type table (`nettypes`), `getnettype`, `getnetname` -/

/-- The `nettypes` table of netdial.c: name, family, socktype. -/
def nettypes : List (List Char × Nat × Nat) :=
  [ (String.toList "tcp",   (AF_UNSPEC, SOCK_STREAM)),
    (String.toList "udp",   (AF_UNSPEC, SOCK_DGRAM)),
    (String.toList "tcp4",  (AF_INET,   SOCK_STREAM)),
    (String.toList "udp4",  (AF_INET,   SOCK_DGRAM)),
    (String.toList "tcp6",  (AF_INET6,  SOCK_STREAM)),
    (String.toList "udp6",  (AF_INET6,  SOCK_DGRAM)),
    (String.toList "unix",  (AF_UNIX,   SOCK_STREAM)),
    (String.toList "unixp", (AF_UNIX,   SOCK_SEQPACKET)) ]

/-- The (family, socktype) pairs of the type table. -/
def famSockPairs : List (Nat × Nat) := nettypes.map (fun e => e.2)

/-- First-match scan of the type table, as in `getnettype`'s loop. -/
def lookupType : List (List Char × Nat × Nat) → List Char → Option (Nat × Nat)
  | [], _ => none
  | e :: es, tok => if ciPrefixMatch tok e.1 then some e.2 else lookupType es tok

/-- Embedding of `getnettype`: empty token fails, otherwise the first
table entry whose name `strncasecmp`-matches the token wins. -/
def getnettype (tok : List Char) : Option (Nat × Nat) :=
  if tok.length = 0 then none else lookupType nettypes tok

/-- Reverse scan of `getnetname`: first table entry with exactly this
(family, socktype) pair. -/
def lookupName : List (List Char × Nat × Nat) → Nat → Nat → Option (List Char)
  | [], _, _ => none
  | e :: es, f, k =>
    if e.2.1 = f ∧ e.2.2 = k then some e.1 else lookupName es f k

/-- Embedding of `getnetname`. -/
def getnetname (family socktype : Nat) : Option (List Char) :=
  lookupName nettypes family socktype

/-! ## `struct netaddr` and `netaddrparse` -/

/-- Embedding of `struct netaddr`. `address`/`service` hold the bytes
written before the NUL terminator that `netaddrparse` places at index
`addrlen` (resp. `servlen`) of the `NI_MAXHOST + 1` (resp.
`NI_MAXSERV + 1`) byte buffer. -/
structure netaddr where
  family : Nat
  socktype : Nat
  address : List Char
  service : List Char
  addrlen : Nat
  servlen : Nat
deriving DecidableEq, Repr

/-- Common tail of `netaddrparse`: node length check, copy into the
buffers, and the service handling (absent service is only legal for
`AF_UNIX`; present service must fit `NI_MAXSERV`). -/
def finishNode (family socktype : Nat) (node : List Char) :
    Option (List Char) → Option netaddr
  | none =>
    if node.length > NI_MAXHOST then none
    else if family = AF_UNIX then
      some ⟨family, socktype, node, [], node.length, 0⟩
    else none
  | some svc =>
    if node.length > NI_MAXHOST then none
    else if svc.length > NI_MAXSERV then none
    else some ⟨family, socktype, node, svc, node.length, svc.length⟩

/-- Node-and-service part of `netaddrparse`, applied to the remainder
after the first colon. A leading bracket scans for the matching
bracket, requires a colon right after it and reconciles the family
(unspecified becomes IPv6, IPv6 stays, anything else is a parse error);
otherwise the node extends to the next colon or the end of string. -/
def parseNode (family socktype : Nat) (rest : List Char) : Option netaddr :=
  if rest.head? = some '[' then
    match strchrSplit (rest.drop 1) ']' with
    | none => none
    | some (node, afterRB) =>
      if afterRB.head? = some ':' then
        if family = AF_UNSPEC then
          finishNode AF_INET6 socktype node (some (afterRB.drop 1))
        else if family = AF_INET6 then
          finishNode AF_INET6 socktype node (some (afterRB.drop 1))
        else none
      else none
  else
    match strchrSplit rest ':' with
    | none => finishNode family socktype rest none
    | some (node, svc) => finishNode family socktype node (some svc)

/-- Embedding of `netaddrparse` (the current version of netdial.c):
split the type token at the first colon, look it up in the type table,
then parse node and optional service. `none` is `return false`. -/
def netaddrparse (str : List Char) : Option netaddr :=
  match strchrSplit str ':' with
  | none => none
  | some (ty, rest) =>
    match getnettype ty with
    | none => none
    | some fk => parseNode fk.1 fk.2 rest

/-! ## Flag translator (`applyflags`) as a state transformer -/

/-- The `optflags` table of netdial.c: netdial flag bit, socket option. -/
def optflags : List (Nat × Nat) :=
  [ (NDpasscred,  SO_PASSCRED),
    (NDpassec,    SO_PASSEC),
    (NDbroadcast, SO_BROADCAST),
    (NDdebug,     SO_DEBUG),
    (NDkeepalive, SO_KEEPALIVE),
    (NDreuseaddr, SO_REUSEADDR),
    (NDreuseport, SO_REUSEPORT) ]

/-- Socket-option state of one descriptor: the value stored for each
`SOL_SOCKET` option number. -/
def setOpt (s : Nat → Nat) (o v : Nat) : Nat → Nat :=
  fun x => if x = o then v else s x

/-- One iteration of the `applyflags` loop: options compiled out
(`sockopt == 0`) are skipped, a set flag bit stores the enabled value 1
through `setsockopt`, everything else leaves the state alone. -/
def applyStep (flags : Nat) (s : Nat → Nat) (e : Nat × Nat) : Nat → Nat :=
  if e.2 = 0 then s
  else if flags &&& e.1 ≠ 0 then setOpt s e.2 1 else s

/-- Embedding of `applyflags fd flags` as its effect on the descriptor's
socket-option state (the success path: each `setsockopt` stores 1). -/
def applyflagsState (flags : Nat) (s : Nat → Nat) : Nat → Nat :=
  optflags.foldl (applyStep flags) s

/-- Whether the `applyflags` loop writes option number `x` for a given
flags value, scanning table `l`. -/
def optTouched (flags x : Nat) (l : List (Nat × Nat)) : Bool :=
  l.any (fun e => !(e.2 == 0) && !(flags &&& e.1 == 0) && (x == e.2))

/-! ## `netaccept`: the flags expression passed to accept4 -/

/-- The third argument of `accept4` exactly as netdial.c writes it,
with C operator precedence: `|` binds tighter than `?:`, so the source
expression
`(flags & NDblocking) ? 0 : SOCK_NONBLOCK | (flags & NDexeckeep) ? 0 : SOCK_CLOEXEC`
parses as
`(flags & NDblocking) ? 0 : ((SOCK_NONBLOCK | (flags & NDexeckeep)) ? 0 : SOCK_CLOEXEC)`. -/
def netacceptAccept4Flags (flags : Nat) : Nat :=
  if flags &&& NDblocking ≠ 0 then 0
  else if SOCK_NONBLOCK ||| (flags &&& NDexeckeep) ≠ 0 then 0
  else SOCK_CLOEXEC

/-- The value the claim (and spec section 4.4) intends that expression
to compute: inverted polarity, each bit suppressing exactly one of the
two creation-time flags. -/
def claimedAccept4Flags (flags : Nat) : Nat :=
  (if flags &&& NDblocking ≠ 0 then 0 else SOCK_NONBLOCK) |||
  (if flags &&& NDexeckeep ≠ 0 then 0 else SOCK_CLOEXEC)

/-! ## Address formatter (`getnetname` + `mknetaddr`) -/

/-- The low-level socket address handed to `mknetaddr`, reduced to the
fields it reads. For the IP case, `host`/`serv` stand for the strings
`getnameinfo` produced for the peer. -/
inductive SockAddrM where
  | unixA (path : List Char)
  | inetA (fam : Nat) (host serv : List Char)
deriving DecidableEq

/-- The `ss_family` field of the model address. -/
def sockAddrFam : SockAddrM → Nat
  | .unixA _ => AF_UNIX
  | .inetA f _ _ => f

/-- The flags argument netdial.c passes to `getnameinfo`, again with C
operator precedence: the `?:` swallows the or-chain, so a datagram
socket requests only `NI_DGRAM` while any other kind requests
`NI_NUMERICHOST | NI_NUMERICSERV`. -/
def mknetaddrNIFlags (socktype : Nat) : Nat :=
  if socktype = SOCK_DGRAM then NI_DGRAM
  else 0 ||| NI_NUMERICHOST ||| NI_NUMERICSERV

/-- Embedding of `mknetaddr`: reverse-lookup the type token for the
address family and the descriptor's socket kind, then render
`<token>:<path>` for Unix or `<token>:<host>:<serv>` for IP (the dbuf
calls build exactly this concatenation). `none` is `return NULL`. -/
def mknetaddrM (socktype : Nat) (sa : SockAddrM) : Option (List Char) :=
  match getnetname (sockAddrFam sa) socktype with
  | none => none
  | some nm =>
    match sa with
    | .unixA path => some (nm ++ ':' :: path)
    | .inetA _ host serv => some (nm ++ ':' :: (host ++ ':' :: serv))

/-! ## Descriptor-lifecycle traces for `netdial` / `netannounce` -/

/-- Descriptor events of a `netdial`/`netannounce` run. -/
inductive Ev where
  | created (fd : Nat)
  | closed (fd : Nat)
deriving DecidableEq

/-- Outcome of one candidate of the resolver loop in `inetsocket`:
`socket()` fails, the connect/bind operation fails, or both succeed. -/
inductive Cand where
  | sockfail
  | opfail
  | opok
deriving DecidableEq

/-- The candidate loop of `inetsocket`: try each resolver candidate in
order; a failed `socket()` creates nothing, a failed connect/bind
closes the fresh descriptor and continues, the first success breaks.
`ctr` numbers the descriptors the kernel would hand out. -/
def inetLoop : Nat → List Cand → Option Nat × List Ev
  | _, [] => (none, [])
  | ctr, Cand.sockfail :: rest => inetLoop ctr rest
  | ctr, Cand.opfail :: rest =>
    ((inetLoop (ctr + 1) rest).1,
     Ev.created ctr :: Ev.closed ctr :: (inetLoop (ctr + 1) rest).2)
  | ctr, Cand.opok :: _ => (some ctr, [Ev.created ctr])

/-- Embedding of `inetsocket`: a failed `getaddrinfo` creates nothing,
otherwise the candidate loop runs. -/
def inetsocketM (resolveOk : Bool) (cands : List Cand) (ctr : Nat) :
    Option Nat × List Ev :=
  if resolveOk then inetLoop ctr cands else (none, [])

/-- Embedding of `unixsocket`: an oversized path fails before any
descriptor exists; then `socket()` may fail; a failed connect/bind
closes the fresh descriptor. -/
def unixsocketM (addrlen : Nat) (sockOk opOk : Bool) (ctr : Nat) :
    Option Nat × List Ev :=
  if SUN_PATH_SIZE ≤ addrlen then (none, [])
  else if sockOk then
    if opOk then (some ctr, [Ev.created ctr])
    else (none, [Ev.created ctr, Ev.closed ctr])
  else (none, [])

/-- Outcomes of the syscalls a `netdial`/`netannounce` run can issue. -/
structure SysEnv where
  unixSockOk : Bool
  unixOpOk : Bool
  resolveOk : Bool
  cands : List Cand
  applyOk : Bool
  listenOk : Bool
deriving DecidableEq

/-- Common epilogue of `netdial` and `netannounce`: when the factory
produced a descriptor, a failing configuration step (`applyflags`, and
in `netannounce` also `listen`) closes it and fails the call. -/
def finishDial (s : Option Nat × List Ev) (ok : Bool) : Option Nat × List Ev :=
  match s.1 with
  | none => (none, s.2)
  | some fd =>
    if ok then (some fd, s.2) else (none, s.2 ++ [Ev.closed fd])

/-- The factory step shared by `netdial` and `netannounce`: Unix or IP
path according to the parsed family. -/
def socketFactory (na : netaddr) (env : SysEnv) : Option Nat × List Ev :=
  if na.family = AF_UNIX
  then unixsocketM na.addrlen env.unixSockOk env.unixOpOk 3
  else inetsocketM env.resolveOk env.cands 3

/-- Embedding of `netdial`: parse, build the socket through the family's
factory, then `applyflags`; a flag-application failure closes the new
descriptor and fails the call. -/
def netdialM (str : List Char) (env : SysEnv) : Option Nat × List Ev :=
  match netaddrparse str with
  | none => (none, [])
  | some na => finishDial (socketFactory na env) env.applyOk

/-- Embedding of `netannounce`: like `netdial` with the bind role, and
failing `applyflags` or `listen` closes the new descriptor. -/
def netannounceM (str : List Char) (env : SysEnv) : Option Nat × List Ev :=
  match netaddrparse str with
  | none => (none, [])
  | some na =>
    finishDial (socketFactory na env) (env.applyOk && env.listenOk)

/-- A factory result leaks no descriptor: on failure every created
descriptor is closed, on success every created descriptor other than
the returned one is closed. -/
def NoLeak (s : Option Nat × List Ev) : Prop :=
  (s.1 = none → ∀ fd, Ev.created fd ∈ s.2 → Ev.closed fd ∈ s.2)
  ∧ (∀ r fd, s.1 = some r → Ev.created fd ∈ s.2 →
      fd = r ∨ Ev.closed fd ∈ s.2)

/-! ## `nethangup` as a trace of syscalls -/

/-- Syscall events of a `nethangup` run. -/
inductive HEv where
  | queryListen
  | getname
  | closeEv
  | unlinkEv (path : List Char)
  | shutdownEv (how : Nat)
deriving DecidableEq

/-- Whether an event is a filesystem path removal. -/
def isUnlinkEv : HEv → Bool
  | .unlinkEv _ => true
  | _ => false

/-- Outcomes of the syscalls a `nethangup` run can issue, plus the
listening state and bound local address of the descriptor. -/
structure HangEnv where
  acceptconnOk : Bool
  isListening : Bool
  getnameOk : Bool
  boundFamily : Nat
  boundPath : List Char
  closeOk : Bool
  unlinkOk : Bool
  shutdownOk : Bool
deriving DecidableEq

/-- Embedding of `nethangup`: dispatch on `flags & NDrdwr`; the three
nonzero mask values are one `shutdown` call each; `NDclose` (mask 0)
queries `SO_ACCEPTCONN`, captures the bound address of a listening
socket via `getsockname`, closes, and unlinks a Unix-domain listening
socket's path after the close, returning the unlink's result. -/
def nethangupM (flags : Nat) (env : HangEnv) : Int × List HEv :=
  let m := flags &&& NDrdwr
  if m = NDread then
    ((if env.shutdownOk then 0 else -1), [HEv.shutdownEv SHUT_RD])
  else if m = NDwrite then
    ((if env.shutdownOk then 0 else -1), [HEv.shutdownEv SHUT_WR])
  else if m = NDrdwr then
    ((if env.shutdownOk then 0 else -1), [HEv.shutdownEv SHUT_RDWR])
  else
    if !env.acceptconnOk then (-1, [HEv.queryListen])
    else if env.isListening && !env.getnameOk then
      (-1, [HEv.queryListen, HEv.getname])
    else
      let pre := if env.isListening
                 then [HEv.queryListen, HEv.getname]
                 else [HEv.queryListen]
      if !env.closeOk then (-1, pre ++ [HEv.closeEv])
      else if env.isListening && env.boundFamily = AF_UNIX then
        ((if env.unlinkOk then 0 else -1),
         pre ++ [HEv.closeEv, HEv.unlinkEv env.boundPath])
      else (0, pre ++ [HEv.closeEv])

/-! ## Concrete inputs used by the witnesses -/

/-- A parse result used to witness the parser safety theorem. -/
def tcpH80 : netaddr :=
  ⟨AF_UNSPEC, SOCK_STREAM, String.toList "h", String.toList "80", 1, 2⟩

/-- Environment where every syscall succeeds except `applyflags`. -/
def envApplyFails : SysEnv := ⟨true, true, true, [Cand.opok], false, true⟩

/-- Environment for a listening Unix socket whose unlink fails. -/
def envUnlinkFails : HangEnv :=
  ⟨true, true, true, AF_UNIX, String.toList "/t", true, false, true⟩

/-- Environment where every syscall succeeds. -/
def envAllOk : HangEnv :=
  ⟨true, true, true, AF_UNIX, String.toList "/t", true, true, true⟩

/-! ## Helper lemmas -/

/-- `strncasecmp`-style matching is prefix matching of the lowercased
byte runs. -/
lemma ciPrefixMatch_eq_isPrefixOf (ty nm : List Char) :
    ciPrefixMatch ty nm
      = (ty.map Char.toLower).isPrefixOf (nm.map Char.toLower) := by
  induction ty generalizing nm with
  | nil => cases nm <;> simp [ciPrefixMatch, List.isPrefixOf]
  | cons a as ih =>
    cases nm with
    | nil => simp [ciPrefixMatch, List.isPrefixOf]
    | cons b bs => simp [ciPrefixMatch, List.isPrefixOf, ih]

/-- If no table name matches the token, the scan fails. -/
lemma lookupType_none (ty : List Char) (l : List (List Char × Nat × Nat))
    (h : ∀ nm ∈ l.map (fun e => e.1),
        (ty.map Char.toLower).isPrefixOf (nm.map Char.toLower) = false) :
    lookupType l ty = none := by
  induction l with
  | nil => rfl
  | cons e es ih =>
    unfold lookupType
    rw [ciPrefixMatch_eq_isPrefixOf, h e.1 (by simp)]
    simp only [Bool.false_eq_true, if_false]
    exact ih (fun nm hm => h nm (by simp [hm]))

/-- A successful table scan returns a pair stored in the table. -/
lemma lookupType_mem (l : List (List Char × Nat × Nat)) (ty : List Char)
    (fk : Nat × Nat) (h : lookupType l ty = some fk) :
    fk ∈ l.map (fun e => e.2) := by
  induction l with
  | nil => exact absurd h (by simp [lookupType])
  | cons e es ih =>
    unfold lookupType at h
    split at h
    · cases h; simp
    · simp only [List.map_cons, List.mem_cons]
      exact Or.inr (ih h)

/-- A recognized type token yields a (family, socktype) pair of the
type table. -/
lemma getnettype_mem (ty : List Char) (fk : Nat × Nat)
    (h : getnettype ty = some fk) : fk ∈ famSockPairs := by
  unfold getnettype at h
  split at h
  · exact absurd h (by simp)
  · exact lookupType_mem _ _ _ h

/-- Inversion of `finishNode`: what a successful parse tail guarantees. -/
lemma finishNode_inv (f k : Nat) (node : List Char)
    (svc? : Option (List Char)) (na : netaddr)
    (h : finishNode f k node svc? = some na) :
    na.family = f ∧ na.socktype = k ∧ na.address = node ∧
    na.addrlen = node.length ∧ node.length ≤ NI_MAXHOST ∧
    na.service.length = na.servlen ∧ na.servlen ≤ NI_MAXSERV := by
  cases svc? with
  | none =>
    simp only [finishNode] at h
    split at h
    · exact absurd h (by simp)
    · rename_i hlen
      split at h
      · injection h with h2
        subst h2
        exact ⟨rfl, rfl, rfl, rfl, by omega, rfl, Nat.zero_le _⟩
      · exact absurd h (by simp)
  | some svc =>
    simp only [finishNode] at h
    split at h
    · exact absurd h (by simp)
    · rename_i hlen
      split at h
      · exact absurd h (by simp)
      · rename_i hslen
        injection h with h2
        subst h2
        exact ⟨rfl, rfl, rfl, rfl, by omega, rfl,
          show svc.length ≤ NI_MAXSERV by omega⟩

/-- A bracketed node forces the parsed family to IPv6 and fails for any
family other than unspecified or IPv6. -/
lemma parseNode_bracket (f k : Nat) (rest : List Char)
    (hb : rest.head? = some '[') :
    (∀ na, parseNode f k rest = some na → na.family = AF_INET6)
    ∧ (f ≠ AF_UNSPEC → f ≠ AF_INET6 → parseNode f k rest = none) := by
  unfold parseNode
  rw [if_pos hb]
  constructor
  · intro na h
    split at h
    · exact absurd h (by simp)
    · split at h
      · split at h
        · exact (finishNode_inv _ _ _ _ _ h).1
        · split at h
          · exact (finishNode_inv _ _ _ _ _ h).1
          · exact absurd h (by simp)
      · exact absurd h (by simp)
  · intro h1 h2
    rcases hsp : strchrSplit (rest.drop 1) ']' with - | ⟨node, afterRB⟩
    · simp only [hsp]
    · simp only [hsp]
      by_cases hc : afterRB.head? = some ':'
      · rw [if_pos hc, if_neg h1, if_neg h2]
      · rw [if_neg hc]

/-- Promotion of an unspecified family to IPv6 stays inside the type
table's (family, socktype) pairs. -/
lemma promote_mem (k : Nat) (h : (AF_UNSPEC, k) ∈ famSockPairs) :
    (AF_INET6, k) ∈ famSockPairs := by
  simp only [famSockPairs, nettypes, AF_UNSPEC, AF_INET, AF_INET6, AF_UNIX,
    SOCK_STREAM, SOCK_DGRAM, SOCK_SEQPACKET, List.map_cons, List.map_nil,
    List.mem_cons, List.not_mem_nil, or_false, Prod.mk.injEq] at h ⊢
  tauto

/-! ## Claim theorems: address parser -/

/-- C10: for every input string, whenever `netaddrparse` succeeds the
produced `netaddr` satisfies: `addrlen ≤ NI_MAXHOST` with exactly
`addrlen` address bytes before the terminator (so the copy and the NUL
land inside the `NI_MAXHOST + 1` byte buffer), `servlen ≤ NI_MAXSERV`
likewise for the service buffer, and (family, socktype) is one of the
eight pairs of the type table. The length guards proved here are the
only writes the function performs into its fixed-size buffers. -/
theorem netaddrparse_safe (str : List Char) (na : netaddr)
    (h : netaddrparse str = some na) :
    na.addrlen ≤ NI_MAXHOST ∧ na.address.length = na.addrlen ∧
    na.servlen ≤ NI_MAXSERV ∧ na.service.length = na.servlen ∧
    (na.family, na.socktype) ∈ famSockPairs := by
  unfold netaddrparse at h
  split at h
  · exact absurd h (by simp)
  · rename_i ty rest heq
    split at h
    · exact absurd h (by simp)
    · rename_i fk hty
      have hmem : fk ∈ famSockPairs := getnettype_mem _ _ hty
      unfold parseNode at h
      split at h
      · split at h
        · exact absurd h (by simp)
        · rename_i node afterRB hsplit
          split at h
          · split at h
            · rename_i hf0
              obtain ⟨h1, h2, h3, h4, h5, h6, h7⟩ := finishNode_inv _ _ _ _ _ h
              refine ⟨by omega, by rw [h3, h4], h7, h6, ?_⟩
              rw [h1, h2]
              refine promote_mem fk.2 ?_
              rw [← hf0, Prod.mk.eta]
              exact hmem
            · split at h
              · rename_i hf6
                obtain ⟨h1, h2, h3, h4, h5, h6, h7⟩ := finishNode_inv _ _ _ _ _ h
                refine ⟨by omega, by rw [h3, h4], h7, h6, ?_⟩
                rw [h1, h2, ← hf6, Prod.mk.eta]
                exact hmem
              · exact absurd h (by simp)
          · exact absurd h (by simp)
      · split at h
        · obtain ⟨h1, h2, h3, h4, h5, h6, h7⟩ := finishNode_inv _ _ _ _ _ h
          refine ⟨by omega, by rw [h3, h4], h7, h6, ?_⟩
          rw [h1, h2, Prod.mk.eta]
          exact hmem
        · rename_i node svc hsplit
          obtain ⟨h1, h2, h3, h4, h5, h6, h7⟩ := finishNode_inv _ _ _ _ _ h
          refine ⟨by omega, by rw [h3, h4], h7, h6, ?_⟩
          rw [h1, h2, Prod.mk.eta]
          exact hmem

/-- Witness for C10 at the concrete input "tcp:h:80". -/
theorem netaddrparse_safe_witness :
    netaddrparse (String.toList "tcp:h:80") = some tcpH80 ∧
    (tcpH80.addrlen ≤ NI_MAXHOST ∧ tcpH80.address.length = tcpH80.addrlen ∧
     tcpH80.servlen ≤ NI_MAXSERV ∧ tcpH80.service.length = tcpH80.servlen ∧
     (tcpH80.family, tcpH80.socktype) ∈ famSockPairs) :=
  ⟨by decide, netaddrparse_safe (String.toList "tcp:h:80") tcpH80 (by decide)⟩

/-- C5: "tcp6:[::1]:8080" parses to family IPv6, node "::1", service
"8080"; "tcp:[::1]:8080" parses with the unspecified family promoted to
IPv6; "tcp4:[::1]:8080" fails; and in general a bracketed node yields
family IPv6 whenever the parse succeeds while any type-table family
other than unspecified or IPv6 is a parse error. -/
theorem bracket_family_rules :
    netaddrparse (String.toList "tcp6:[::1]:8080")
      = some ⟨AF_INET6, SOCK_STREAM, String.toList "::1",
              String.toList "8080", 3, 4⟩
    ∧ netaddrparse (String.toList "tcp:[::1]:8080")
      = some ⟨AF_INET6, SOCK_STREAM, String.toList "::1",
              String.toList "8080", 3, 4⟩
    ∧ netaddrparse (String.toList "tcp4:[::1]:8080") = none
    ∧ (∀ str ty rest f k, strchrSplit str ':' = some (ty, rest) →
        getnettype ty = some (f, k) → rest.head? = some '[' →
        (∀ na, netaddrparse str = some na → na.family = AF_INET6)
        ∧ (f ≠ AF_UNSPEC → f ≠ AF_INET6 → netaddrparse str = none)) := by
  refine ⟨by decide, by decide, by decide, ?_⟩
  intro str ty rest f k h1 h2 hb
  simp only [netaddrparse, h1, h2]
  exact parseNode_bracket f k rest hb

/-- Witness for C5's general clause: "udp4" has family IPv4, so a
bracketed node makes the parse fail. -/
theorem bracket_family_rules_witness :
    netaddrparse (String.toList "udp4:[::1]:9") = none :=
  (bracket_family_rules.2.2.2 (String.toList "udp4:[::1]:9")
      (String.toList "udp4") (String.toList "[::1]:9") AF_INET SOCK_DGRAM
      (by decide) (by decide) (by decide)).2 (by decide) (by decide)

/-- C4 (amended): the type-token comparison is `strncasecmp` limited to
the token's length, so the parse fails whenever the token is not a
case-insensitive prefix of one of the eight table names (the original
claim required exact equality, which the code does not enforce). -/
theorem netaddrparse_unknown_type_fails (str ty rest : List Char)
    (h1 : strchrSplit str ':' = some (ty, rest))
    (h2 : ∀ nm ∈ nettypes.map (fun e => e.1),
        (ty.map Char.toLower).isPrefixOf (nm.map Char.toLower) = false) :
    netaddrparse str = none := by
  have hge : getnettype ty = none := by
    unfold getnettype
    split
    · rfl
    · exact lookupType_none ty nettypes h2
  simp only [netaddrparse, h1, hge]

/-- Witness for C4's theorem at the concrete input "foo:bar". -/
theorem netaddrparse_unknown_type_fails_witness :
    netaddrparse (String.toList "foo:bar") = none :=
  netaddrparse_unknown_type_fails (String.toList "foo:bar")
    (String.toList "foo") (String.toList "bar") (by decide) (by decide)

/-- Counterexample to C4 as stated: "tc" is none of the eight type
tokens, yet "tc:h:80" parses successfully (the truncated comparison
accepts any case-insensitive prefix, here matching "tcp"). -/
theorem netaddrparse_prefix_token_accepted :
    netaddrparse (String.toList "tc:h:80")
      = some ⟨AF_UNSPEC, SOCK_STREAM, String.toList "h",
              String.toList "80", 1, 2⟩
    ∧ ((nettypes.map (fun e => e.1)).contains (String.toList "tc")) = false := by
  decide

/-- C2 (code bug): "unix:/x:svc" is accepted by `netaddrparse`, which
stores family `AF_UNIX` together with the non-empty service "svc"; the
header's address-format documentation and the spec both require this
parse to fail (service must be omitted for Unix-domain addresses). -/
theorem netaddrparse_unix_service_accepted :
    netaddrparse (String.toList "unix:/x:svc")
      = some ⟨AF_UNIX, SOCK_STREAM, String.toList "/x",
              String.toList "svc", 2, 3⟩ := by
  decide

/-! ## Claim theorems: accept flags, flag translator, formatter -/

/-- C1 (code bug): because `|` binds tighter than `?:`, the flags
expression netdial.c passes to `accept4` evaluates to 0 for every
flags value, so `netaccept` never requests `SOCK_NONBLOCK` or
`SOCK_CLOEXEC`; the claimed inverted-polarity value (computed by
`claimedAccept4Flags`) is nonzero at `NDdefault` and differs. -/
theorem netaccept_flags_collapse :
    (∀ flags, netacceptAccept4Flags flags = 0)
    ∧ claimedAccept4Flags NDdefault = SOCK_NONBLOCK ||| SOCK_CLOEXEC
    ∧ claimedAccept4Flags NDblocking = SOCK_CLOEXEC
    ∧ claimedAccept4Flags NDexeckeep = SOCK_NONBLOCK
    ∧ 0 < SOCK_NONBLOCK ||| SOCK_CLOEXEC := by
  refine ⟨?_, by decide, by decide, by decide, by decide⟩
  intro flags
  unfold netacceptAccept4Flags
  split
  · rfl
  · have hne : SOCK_NONBLOCK ||| (flags &&& NDexeckeep) ≠ 0 := by
      intro h0
      have ht : (SOCK_NONBLOCK ||| (flags &&& NDexeckeep)).testBit 11 = true := by
        rw [Nat.testBit_or]
        simp [show SOCK_NONBLOCK.testBit 11 = true by decide]
      rw [h0] at ht
      exact absurd ht (by decide)
    rw [if_pos hne]

/-- One step of the `optTouched` scan. -/
lemma optTouched_cons (flags x : Nat) (e : Nat × Nat)
    (es : List (Nat × Nat)) :
    optTouched flags x (e :: es)
      = ((!(e.2 == 0) && !(flags &&& e.1 == 0) && (x == e.2))
          || optTouched flags x es) := by
  simp [optTouched]

/-- Pointwise characterization of the `applyflags` loop: an option is 1
afterwards when some enabled table row names it, otherwise unchanged. -/
lemma foldl_applyStep_char (flags : Nat) (l : List (Nat × Nat)) :
    ∀ (s : Nat → Nat) (x : Nat),
      (l.foldl (applyStep flags) s) x
        = if optTouched flags x l then 1 else s x := by
  induction l with
  | nil =>
    intro s x
    simp [optTouched]
  | cons e es ih =>
    intro s x
    rw [List.foldl_cons, ih]
    by_cases h2 : optTouched flags x es = true
    · simp [optTouched_cons, h2]
    · rw [Bool.not_eq_true] at h2
      by_cases he : e.2 = 0
      · simp [optTouched_cons, h2, applyStep, he]
      · by_cases hf : flags &&& e.1 = 0
        · simp [optTouched_cons, h2, applyStep, he, hf]
        · by_cases hx : x = e.2
          · simp [optTouched_cons, h2, applyStep, setOpt, he, hf, hx]
          · simp [optTouched_cons, h2, applyStep, setOpt, he, hf, hx]

/-- C7: the flag translator is idempotent on the socket-option state:
every iteration either skips or stores the constant 1, so a second
application of the same flags value changes nothing. -/
theorem applyflags_idempotent (flags : Nat) (s : Nat → Nat) :
    applyflagsState flags (applyflagsState flags s) = applyflagsState flags s := by
  funext x
  unfold applyflagsState
  rw [foldl_applyStep_char, foldl_applyStep_char]
  by_cases ht : optTouched flags x optflags = true
  · rw [if_pos ht, if_pos ht]
  · rw [if_neg ht, if_neg ht]

/-- C3 (amended): the peer-address text `netaccept` produces for an
accepted TCP connection is `tcp4:<ip>:<port>` for an IPv4 peer and
`tcp6:<ip>:<port>` for an IPv6 peer (the reverse table lookup matches
the concrete family, never the unspecified-family "tcp" row), with
`getnameinfo` asked for numeric host and numeric service. -/
theorem mknetaddr_inet_stream_form (fam : Nat) (host serv : List Char)
    (h : fam = AF_INET ∨ fam = AF_INET6) :
    mknetaddrM SOCK_STREAM (SockAddrM.inetA fam host serv)
      = some ((if fam = AF_INET then String.toList "tcp4"
               else String.toList "tcp6") ++ ':' :: (host ++ ':' :: serv))
    ∧ mknetaddrNIFlags SOCK_STREAM = NI_NUMERICHOST ||| NI_NUMERICSERV := by
  rcases h with h | h <;> subst h
  · exact ⟨by simp [mknetaddrM, getnetname, lookupName, nettypes, sockAddrFam,
      AF_INET, AF_UNSPEC, AF_INET6, AF_UNIX,
      SOCK_STREAM, SOCK_DGRAM, SOCK_SEQPACKET], by decide⟩
  · exact ⟨by simp [mknetaddrM, getnetname, lookupName, nettypes, sockAddrFam,
      AF_INET, AF_UNSPEC, AF_INET6, AF_UNIX,
      SOCK_STREAM, SOCK_DGRAM, SOCK_SEQPACKET], by decide⟩

/-- Witness for C3's amended theorem at an IPv6 peer. -/
theorem mknetaddr_inet_stream_form_witness :
    mknetaddrM SOCK_STREAM
        (SockAddrM.inetA AF_INET6 (String.toList "::1") (String.toList "80"))
      = some ((if AF_INET6 = AF_INET then String.toList "tcp4"
               else String.toList "tcp6")
              ++ ':' :: (String.toList "::1" ++ ':' :: String.toList "80"))
    ∧ mknetaddrNIFlags SOCK_STREAM = NI_NUMERICHOST ||| NI_NUMERICSERV :=
  mknetaddr_inet_stream_form AF_INET6 (String.toList "::1")
    (String.toList "80") (Or.inr rfl)

/-- Counterexample to C3 as stated: for an IPv4 peer the populated text
is "tcp4:127.0.0.1:8080", not the claimed "tcp:127.0.0.1:8080". -/
theorem mknetaddr_tcp4_counterexample :
    mknetaddrM SOCK_STREAM
        (SockAddrM.inetA AF_INET (String.toList "127.0.0.1")
          (String.toList "8080"))
      = some (String.toList "tcp4:127.0.0.1:8080")
    ∧ ((String.toList "tcp4:127.0.0.1:8080")
        == (String.toList "tcp:127.0.0.1:8080")) = false := by
  decide

/-! ## Claim theorems: descriptor lifecycle -/

/-- The resolver candidate loop leaks no descriptor. -/
lemma inetLoop_noLeak (cands : List Cand) : ∀ ctr, NoLeak (inetLoop ctr cands) := by
  induction cands with
  | nil =>
    intro ctr
    exact ⟨fun _ fd hm => absurd hm (by simp [inetLoop]),
           fun r fd h => absurd h (by simp [inetLoop])⟩
  | cons c rest ih =>
    intro ctr
    cases c with
    | sockfail => simpa only [inetLoop] using ih ctr
    | opfail =>
      obtain ⟨ih1, ih2⟩ := ih (ctr + 1)
      constructor
      · intro h fd hm
        simp only [inetLoop, List.mem_cons] at h hm ⊢
        simp only [Ev.created.injEq, reduceCtorEq, false_or] at hm
        rcases hm with hm | hm
        · exact Or.inr (Or.inl (by rw [hm]))
        · exact Or.inr (Or.inr (ih1 h fd hm))
      · intro r fd h hm
        simp only [inetLoop, List.mem_cons] at h hm ⊢
        simp only [Ev.created.injEq, reduceCtorEq, false_or] at hm
        rcases hm with hm | hm
        · exact Or.inr (Or.inr (Or.inl (by rw [hm])))
        · rcases ih2 r fd h hm with h2 | h2
          · exact Or.inl h2
          · exact Or.inr (Or.inr (Or.inr h2))
    | opok =>
      constructor
      · intro h
        simp [inetLoop] at h
      · intro r fd h hm
        simp only [inetLoop, Option.some.injEq] at h
        simp only [inetLoop, List.mem_cons, List.not_mem_nil, or_false,
          Ev.created.injEq] at hm
        exact Or.inl (by omega)

/-- The Unix-domain factory leaks no descriptor. -/
lemma unixsocketM_noLeak (addrlen : Nat) (sockOk opOk : Bool) (ctr : Nat) :
    NoLeak (unixsocketM addrlen sockOk opOk ctr) := by
  by_cases h1 : SUN_PATH_SIZE ≤ addrlen
  · refine ⟨fun _ fd hm => absurd hm ?_, fun r fd h => absurd h ?_⟩ <;>
      simp [unixsocketM, h1]
  · cases sockOk with
    | false =>
      refine ⟨fun _ fd hm => absurd hm ?_, fun r fd h => absurd h ?_⟩ <;>
        simp [unixsocketM, h1]
    | true =>
      cases opOk with
      | false =>
        constructor
        · intro _ fd hm
          simp [unixsocketM, h1] at hm ⊢
          omega
        · intro r fd h
          exact absurd h (by simp [unixsocketM, h1])
      | true =>
        constructor
        · intro h
          exact absurd h (by simp [unixsocketM, h1])
        · intro r fd h hm
          simp [unixsocketM, h1] at h hm
          omega

/-- The configuration epilogue preserves the no-leak property. -/
lemma finishDial_no_leak (s : Option Nat × List Ev) (hs : NoLeak s)
    (ok : Bool) (h : (finishDial s ok).1 = none) :
    ∀ fd, Ev.created fd ∈ (finishDial s ok).2 →
      Ev.closed fd ∈ (finishDial s ok).2 := by
  intro fd hm
  cases hs1 : s.1 with
  | none =>
    simp only [finishDial, hs1] at hm ⊢
    exact hs.1 hs1 fd hm
  | some r =>
    cases ok with
    | true =>
      simp [finishDial, hs1] at h
    | false =>
      simp only [finishDial, hs1, Bool.false_eq_true, if_false] at hm ⊢
      rw [List.mem_append] at hm
      rcases hm with hm | hm
      · rcases hs.2 r fd hs1 hm with h2 | h2
        · subst h2
          exact List.mem_append_right _ (by simp)
        · exact List.mem_append_left _ h2
      · simp at hm

/-- C6: whenever `netdial` or `netannounce` returns failure, every
descriptor a factory step created during the call has been closed: no
failing path leaks the descriptor it created (resolver-loop candidates,
connect/bind failures, late `applyflags` failures and `netannounce`'s
`listen` failure all close before returning). -/
theorem no_descriptor_leak (str : List Char) (env : SysEnv) :
    ((netdialM str env).1 = none → ∀ fd,
        Ev.created fd ∈ (netdialM str env).2 →
        Ev.closed fd ∈ (netdialM str env).2)
    ∧ ((netannounceM str env).1 = none → ∀ fd,
        Ev.created fd ∈ (netannounceM str env).2 →
        Ev.closed fd ∈ (netannounceM str env).2) := by
  have hfac : ∀ na, NoLeak (socketFactory na env) := by
    intro na
    unfold socketFactory
    by_cases hf : na.family = AF_UNIX
    · rw [if_pos hf]
      exact unixsocketM_noLeak _ _ _ _
    · rw [if_neg hf]
      unfold inetsocketM
      by_cases hr : env.resolveOk = true
      · rw [if_pos hr]
        exact inetLoop_noLeak _ _
      · rw [if_neg hr]
        exact ⟨fun _ fd hm => absurd hm (by simp),
               fun r fd h => absurd h (by simp)⟩
  constructor
  · cases hp : netaddrparse str with
    | none =>
      intro h fd hm
      simp only [netdialM, hp] at hm
      exact absurd hm (by simp)
    | some na =>
      intro h fd hm
      simp only [netdialM, hp] at h hm ⊢
      exact finishDial_no_leak _ (hfac na) _ h fd hm
  · cases hp : netaddrparse str with
    | none =>
      intro h fd hm
      simp only [netannounceM, hp] at hm
      exact absurd hm (by simp)
    | some na =>
      intro h fd hm
      simp only [netannounceM, hp] at h hm ⊢
      exact finishDial_no_leak _ (hfac na) _ h fd hm

/-- Witness for C6: with `applyflags` failing after a successful
connect (resp. bind), the created descriptor 3 is closed in both the
`netdial` and the `netannounce` trace. -/
theorem no_descriptor_leak_witness :
    Ev.closed 3 ∈ (netdialM (String.toList "tcp:h:80") envApplyFails).2
    ∧ Ev.closed 3 ∈ (netannounceM (String.toList "tcp:h:80") envApplyFails).2 :=
  ⟨(no_descriptor_leak (String.toList "tcp:h:80") envApplyFails).1
      (by decide) 3 (by decide),
   (no_descriptor_leak (String.toList "tcp:h:80") envApplyFails).2
      (by decide) 3 (by decide)⟩

/-! ## Claim theorems: nethangup -/

/-- The hangup-mode mask can only take the four switch-case values. -/
lemma and_NDrdwr_cases (flags : Nat) :
    flags &&& NDrdwr = NDclose ∨ flags &&& NDrdwr = NDread ∨
    flags &&& NDrdwr = NDwrite ∨ flags &&& NDrdwr = NDrdwr := by
  have h1 : flags &&& NDrdwr ≤ NDrdwr := Nat.and_le_right
  have h2 : (flags &&& NDrdwr).testBit 0 = false := by
    rw [Nat.testBit_and]
    simp [show Nat.testBit NDrdwr 0 = false by decide]
  rw [Nat.testBit_zero] at h2
  simp only [decide_eq_false_iff_not] at h2
  unfold NDclose NDread NDwrite NDrdwr at *
  omega

/-- C9: for the three half-close modes the whole effect of `nethangup`
is a single `shutdown` of the corresponding direction: no close, no
path removal, nothing else; a path removal can only appear in the
`NDclose` branch. -/
theorem nethangup_halfclose_frame (env : HangEnv) (flags : Nat) :
    (flags &&& NDrdwr = NDread →
      (nethangupM flags env).2 = [HEv.shutdownEv SHUT_RD])
    ∧ (flags &&& NDrdwr = NDwrite →
      (nethangupM flags env).2 = [HEv.shutdownEv SHUT_WR])
    ∧ (flags &&& NDrdwr = NDrdwr →
      (nethangupM flags env).2 = [HEv.shutdownEv SHUT_RDWR])
    ∧ (∀ p, HEv.unlinkEv p ∈ (nethangupM flags env).2 →
        flags &&& NDrdwr = NDclose) := by
  refine ⟨?_, ?_, ?_, ?_⟩
  · intro h
    simp [nethangupM, NDread, NDwrite, NDrdwr, NDclose, show flags &&& 6 = 2 from h]
  · intro h
    simp [nethangupM, NDread, NDwrite, NDrdwr, NDclose, show flags &&& 6 = 4 from h]
  · intro h
    simp [nethangupM, NDread, NDwrite, NDrdwr, NDclose, show flags &&& 6 = 6 from h]
  · intro p hm
    rcases and_NDrdwr_cases flags with h | h | h | h
    · exact h
    · simp [nethangupM, NDread, NDwrite, NDrdwr, NDclose, show flags &&& 6 = 2 from h] at hm
    · simp [nethangupM, NDread, NDwrite, NDrdwr, NDclose, show flags &&& 6 = 4 from h] at hm
    · simp [nethangupM, NDread, NDwrite, NDrdwr, NDclose, show flags &&& 6 = 6 from h] at hm

/-- Witness for C9 at flags `NDread`. -/
theorem nethangup_halfclose_frame_witness :
    (nethangupM NDread envAllOk).2 = [HEv.shutdownEv SHUT_RD] :=
  (nethangup_halfclose_frame envAllOk NDread).1 (by decide)

set_option maxHeartbeats 2000000 in
/-- C8: the full-close path of `nethangup` first queries the listening
state; for a listening socket it captures the bound address before the
close; the close always precedes any path removal; a path is removed
only for a listening Unix-domain socket and it is the captured bound
path; and a failing unlink makes the call fail while the close has
already happened (and is not undone). -/
theorem nethangup_close_protocol (env : HangEnv) :
    (nethangupM NDclose env).2.head? = some HEv.queryListen
    ∧ (env.acceptconnOk = true → env.isListening = true →
        (nethangupM NDclose env).2.take 2 = [HEv.queryListen, HEv.getname])
    ∧ (∀ p, HEv.unlinkEv p ∈ (nethangupM NDclose env).2 →
        HEv.closeEv ∈ (nethangupM NDclose env).2.takeWhile
          (fun e => !(isUnlinkEv e)))
    ∧ (∀ p, HEv.unlinkEv p ∈ (nethangupM NDclose env).2 →
        env.isListening = true ∧ env.boundFamily = AF_UNIX ∧
        p = env.boundPath)
    ∧ (env.acceptconnOk = true → env.isListening = true →
        env.getnameOk = true → env.closeOk = true →
        env.boundFamily = AF_UNIX → env.unlinkOk = false →
        (nethangupM NDclose env).1 = -1 ∧
        HEv.closeEv ∈ (nethangupM NDclose env).2) := by
  obtain ⟨aok, lis, gok, fam, path, cok, uok, sok⟩ := env
  by_cases hf : fam = AF_UNIX <;>
    cases aok <;> cases lis <;> cases gok <;> cases cok <;> cases uok <;>
      simp_all [nethangupM, NDclose, NDread, NDwrite, NDrdwr, isUnlinkEv,
        List.takeWhile]

/-- Witness for C8: listening Unix socket, every syscall succeeding
except the final unlink. -/
theorem nethangup_close_protocol_witness :
    (nethangupM NDclose envUnlinkFails).1 = -1
    ∧ HEv.closeEv ∈ (nethangupM NDclose envUnlinkFails).2 :=
  (nethangup_close_protocol envUnlinkFails).2.2.2.2 rfl rfl rfl rfl rfl rfl
